import Mathlib

/-!
Verification development for the PiPicoW_OTA firmware (`main.py`).

The embedding below translates the parts of `main.py` that the specification
talks about: the content-normalization used by the OTA update check
(`normalize_code`, lines 36-38), the update decision logic
(`check_for_updates`, lines 68-111), the installer (`update_script`,
lines 116-124), the log sink with rotation (`log_event` lines 128-150,
`rotate_log_file` lines 154-161), the seasonal UTC-offset expression that is
repeated verbatim at every log call site (e.g. line 121), and the HTTP
request dispatch of `serve` (lines 242-277).

Modelling conventions:
- Program text (the image) is a `List Char`; log file contents are the list
  of appended lines (`uos.stat(...)[6]` is modelled as the summed character
  length of the lines plus one newline byte per line).
- `time.localtime()` is an explicit `PyTime` argument `now`; the
  `time.mktime(t) + offset*3600` / `time.localtime(adjusted)` round-trip is
  modelled as adding the offset to the hour field (`dstAdjust`): none of the
  claims depend on calendar rollover, only on which offset is chosen.
- Fallible I/O (the failures the spec discusses: stat, rename, append,
  image write) is injected through a `Faults` record; an operation that the
  Python code would see raise `OSError` raises the recorded message.
- `log_event` calls itself recursively (line 142) before rotating, so the
  embedding carries a fuel parameter; a result of `none` means the call did
  not complete within the given fuel (for any fuel - i.e. divergence - when
  that is proved).
- Lines 90, 94, 97, 100 and 103 of the source carry mechanical slips
  (a dropped closing parenthesis in the offset expression that is written
  intact at lines 121, 140, 220, 246, ... and two mis-indented `else:`
  keywords); the embedding follows the evident block structure, which
  matches the duplicated intact code elsewhere in the file.
- Line 4 imports `from machine import Pin, reset`: the module name `machine`
  itself is never bound, so `machine.reset()` at line 124 raises a
  `NameError` at runtime instead of restarting the board.  The embedding
  models that call as raising `nameErrMachine`.
-/

namespace PicoOTA

/-- `MAX_LOG_SIZE = 10 * 1024` (line 18 of `main.py`). -/
def MAX_LOG_SIZE : Nat := 10 * 1024

/-- The `time.localtime()` tuple, restricted to the six fields the code
formats (year, month, day, hour, minute, second). -/
structure PyTime where
  year : Nat
  month : Nat
  day : Nat
  hour : Nat
  minute : Nat
  second : Nat
deriving DecidableEq, Repr

/-- The seasonal UTC offset expression repeated at every log call site
(line 121 and duplicates):
`2 if (3 <= t[1] <= 10 and not (t[1] == 3 and t[2] < 25) and not (t[1] == 10 and t[2] >= 25)) else 1`. -/
def local_offset_hours (m d : Nat) : Nat :=
  if 3 ≤ m ∧ m ≤ 10 ∧ ¬(m = 3 ∧ d < 25) ∧ ¬(m = 10 ∧ 25 ≤ d) then 2 else 1

/-- `time.localtime(time.mktime(t) + offset * 3600)`: the offset is applied
to the hour field (calendar rollover is irrelevant to every claim). -/
def dstAdjust (t : PyTime) : PyTime :=
  ⟨t.year, t.month, t.day, t.hour + local_offset_hours t.month t.day, t.minute, t.second⟩

/-- Zero-padded two-digit field, as `"{:02}".format`. -/
def pad2 (n : Nat) : String :=
  if n < 10 then "0" ++ toString n else toString n

/-- Zero-padded four-digit field, as `"{:04}".format`. -/
def pad4 (n : Nat) : String :=
  if n < 10 then "000" ++ toString n
  else if n < 100 then "00" ++ toString n
  else if n < 1000 then "0" ++ toString n
  else toString n

/-- `"{:04}-{:02}-{:02} {:02}:{:02}:{:02}".format(*t)` (line 132). -/
def formatTime (t : PyTime) : String :=
  pad4 t.year ++ "-" ++ pad2 t.month ++ "-" ++ pad2 t.day ++ " " ++
    pad2 t.hour ++ ":" ++ pad2 t.minute ++ ":" ++ pad2 t.second

/-- The log line built at line 133: `f"{formatted_time} - {message}"`. -/
def mkLogLine (t : PyTime) (msg : String) : String :=
  formatTime t ++ " - " ++ msg

/-- Characters stripped from line ends by `str.rstrip()` in the inputs the
claims range over (blank and tab; the line terminators themselves never
occur inside a `splitlines` line). -/
def isTrailingWS (c : Char) : Bool :=
  c = ' ' || c = '\t'

/-- `line.rstrip()`: drop trailing whitespace. -/
def rstrip (l : List Char) : List Char :=
  (l.reverse.dropWhile isTrailingWS).reverse

/-- `str.splitlines()` worker: `acc` holds the current (reversed) line.
Splits on `"\n"`, `"\r\n"` and `"\r"`; a final fragment is emitted only when
non-empty, so `"".splitlines() == []`, `"\n".splitlines() == [""]` and
`"a".splitlines() == ["a"]`, as in Python. -/
def splitlinesAux : List Char → List Char → List (List Char)
  | acc, [] => if acc.isEmpty then [] else [acc.reverse]
  | acc, '\r' :: '\n' :: rest => acc.reverse :: splitlinesAux [] rest
  | acc, '\n' :: rest => acc.reverse :: splitlinesAux [] rest
  | acc, '\r' :: rest => acc.reverse :: splitlinesAux [] rest
  | acc, c :: rest => splitlinesAux (c :: acc) rest

/-- `code.splitlines()`. -/
def splitlines (code : List Char) : List (List Char) :=
  splitlinesAux [] code

/-- `"\n".join(lines)`. -/
def joinLines : List (List Char) → List Char
  | [] => []
  | [l] => l
  | l :: rest => l ++ '\n' :: joinLines rest

/-- `normalize_code` (lines 36-38):
`"\n".join(line.rstrip() for line in code.splitlines())`. -/
def normalize_code (code : List Char) : List Char :=
  joinLines ((splitlines code).map rstrip)

/-- The normalized line sequence of an image: its `splitlines` lines with
trailing whitespace stripped (the sequence `normalize_code` joins). -/
def normLines (code : List Char) : List (List Char) :=
  (splitlines code).map rstrip

/-- Persistent store: the installed script (`SCRIPT_NAME`), the active log
file (`LOG_FILE`) as a list of appended lines, and the `.bak` backup.
`none` means the file does not exist. -/
structure FS where
  script : Option (List Char)
  log : Option (List String)
  logBak : Option (List String)
deriving DecidableEq, Repr

/-- Injected I/O failures; each `some m` makes the operation raise an
`OSError` whose text is `m`. `statFails` makes `uos.stat(LOG_FILE)` raise
(so `file_exists` returns `False`, line 27-32). -/
structure Faults where
  statFails : Bool
  renameFails : Option String
  appendFails : Option String
  writeFails : Option String
deriving DecidableEq, Repr

/-- The fault-free environment. -/
def noFaults : Faults := ⟨false, none, none, none⟩

/-- Observable side effects of a run: console prints, LED flash patterns,
writes of an image to the script store, and invocations of the board reset. -/
structure Trace where
  console : List String
  flashes : Nat
  writes : List (List Char)
  resets : Nat
deriving DecidableEq, Repr

/-- Lines currently in the active log file (empty when absent). -/
def logLines (fs : FS) : List String :=
  fs.log.getD []

/-- `uos.stat(LOG_FILE)[6]`: each appended line contributes its length plus
the `"\n"` written after it (line 147). -/
def logSize (fs : FS) : Nat :=
  ((logLines fs).map (fun l => l.length + 1)).sum

/-- Replace the stored script image. -/
def withScript (fs : FS) (s : Option (List Char)) : FS :=
  ⟨s, fs.log, fs.logBak⟩

/-- Append one line to the active log file, creating it if absent
(`open(LOG_FILE, "a")`, lines 146-147). -/
def appendLog (fs : FS) (line : String) : FS :=
  ⟨fs.script, some (logLines fs ++ [line]), fs.logBak⟩

/-- `rotate_log_file` (lines 154-161): if the active log exists, rename it
over the `.bak` name (clobbering any prior backup); any error is caught in
its own handler and only printed. Returns the new store and console output. -/
def rotate_log_file (io : Faults) (fs : FS) : FS × List String :=
  if fs.log.isSome then
    match io.renameFails with
    | some m => (fs, ["Error rotating log file: " ++ m])
    | none => (⟨fs.script, none, fs.log⟩, ["Log file rotated. Old log saved as system_log.txt.bak"])
  else (fs, [])

/-- The message logged (and printed) on the rotation path (lines 138, 142). -/
def rotationMsg : String := "Log file size exceeded, rotating log file."

/-- `log_event` (lines 128-150) with fuel for the recursive call at
line 142.  Result: `none` when the fuel is exhausted before the call
completes; otherwise `some (fs, console, propagated)` where `propagated` is
an exception escaping `log_event` itself - always `none`, because the body
is wrapped in `try ... except Exception` (lines 129, 149): an append failure
is caught and printed at line 150, a rename failure is caught inside
`rotate_log_file`, and a stat failure is absorbed by `file_exists`. -/
def logEvent : Nat → Faults → PyTime → FS → String → Option PyTime →
    Option (FS × List String × Option String)
  | 0, _, _, _, _, _ => none
  | fuel + 1, io, now, fs, msg, tOpt =>
    let t := tOpt.getD now
    let line := mkLogLine t msg
    if io.statFails = false ∧ fs.log.isSome = true ∧ MAX_LOG_SIZE ≤ logSize fs then
      match logEvent fuel io now fs rotationMsg (some (dstAdjust now)) with
      | none => none
      | some (fs1, con1, _) =>
        let r := rotate_log_file io fs1
        match io.appendFails with
        | some m =>
          some (r.1, line :: rotationMsg :: con1 ++ r.2 ++ ["Error logging event: " ++ m], none)
        | none =>
          some (appendLog r.1 line, line :: rotationMsg :: con1 ++ r.2, none)
    else
      match io.appendFails with
      | some m => some (fs, [line, "Error logging event: " ++ m], none)
      | none => some (appendLog fs line, [line], none)

/-- Outcome of one `check_for_updates` run, labelling the branch that
produced the run result (the Python function itself returns `None`; the
spec names these branches `Applied` / `UpToDate` / `Unavailable`). -/
inductive Outcome where
  | applied : Outcome
  | upToDate : Outcome
  | unavailable : Nat → Outcome
  | otaError : String → Outcome
deriving DecidableEq, Repr

/-- What `urequests.get(url)` produced: a response with status and body, or
a raised exception (no connectivity, timeout). -/
inductive FetchResult where
  | ok : Nat → List Char → FetchResult
  | exn : String → FetchResult
deriving DecidableEq, Repr

/-- The `NameError` text for line 124: `machine.reset()` is evaluated while
only `from machine import Pin, reset` (line 4) was imported, so the name
`machine` is unbound. -/
def nameErrMachine : String := "NameError: machine is not defined"

/-- The catch-all handler of `check_for_updates` (lines 106-111): print and
log `"Error during OTA update: <e>"`, then fall off the end of the function
(the process keeps running). -/
def catchOta (fuel : Nat) (io : Faults) (now : PyTime) (fs : FS) (con : List String)
    (fl : Nat) (ws : List (List Char)) (e : String) : Option (FS × Trace × Outcome) :=
  match logEvent fuel io now fs ("Error during OTA update: " ++ e) (some (dstAdjust now)) with
  | none => none
  | some (fs1, con1, _) =>
    some (fs1, ⟨con ++ ["Error during OTA update: " ++ e] ++ con1, fl, ws, 0⟩, .otaError e)

/-- `update_script` (lines 116-124), as run under the caller's `try`:
`open(SCRIPT_NAME, "w")` truncates the stored image, then the write either
raises (propagating to the caller's catch-all with the store truncated) or
stores the new code; then the action is printed and logged, and
`machine.reset()` raises `NameError` (see `nameErrMachine`), which also
propagates to the caller's catch-all - the reset itself never runs. -/
def update_script_run (fuel : Nat) (io : Faults) (now : PyTime) (fs : FS)
    (con : List String) (fl : Nat) (newCode : List Char) : Option (FS × Trace × Outcome) :=
  match io.writeFails with
  | some m => catchOta fuel io now (withScript fs (some [])) con fl [] m
  | none =>
    let fs1 := withScript fs (some newCode)
    match logEvent fuel io now fs1 "OTA update applied. Restarting..." (some (dstAdjust now)) with
    | none => none
    | some (fs2, con1, _) =>
      catchOta fuel io now fs2 (con ++ ["Update applied. Restarting..."] ++ con1) fl [newCode] nameErrMachine

/-- `check_for_updates` (lines 68-111), following the evident block
structure of the mangled lines 86-105 (see the file comment): on a 200
response, normalize and compare against the installed script (a missing
script is treated as an update), else print and log the failed status; a
raised fetch lands in the catch-all. -/
def check_for_updates (fuel : Nat) (io : Faults) (now : PyTime) (fetch : FetchResult)
    (fs : FS) : Option (FS × Trace × Outcome) :=
  match fetch with
  | .exn m => catchOta fuel io now fs [] 0 [] m
  | .ok status txt =>
    if status = 200 then
      let newCode := normalize_code txt
      match fs.script with
      | none =>
        update_script_run fuel io now fs ["No existing script found. Applying update..."] 0 newCode
      | some cur =>
        if normalize_code cur ≠ newCode then
          match logEvent fuel io now fs "Update available. Applying update..." (some (dstAdjust now)) with
          | none => none
          | some (fs1, con1, _) =>
            update_script_run fuel io now fs1 (["Update available. Applying update..."] ++ con1) 1 newCode
        else
          match logEvent fuel io now fs "Checked for updates: No updates available." (some (dstAdjust now)) with
          | none => none
          | some (fs1, con1, _) =>
            some (fs1, ⟨["No updates available."] ++ con1, 0, [], 0⟩, .upToDate)
    else
      match logEvent fuel io now fs ("Failed to fetch update: " ++ toString status) (some (dstAdjust now)) with
      | none => none
      | some (fs1, con1, _) =>
        some (fs1, ⟨["Failed to fetch update: " ++ toString status] ++ con1, 0, [], 0⟩, .unavailable status)

/-- Substring containment, used both for the request matching of `serve`
(Python `in` on `str`) and to state "log line containing ...". -/
def strContains (hay sub : String) : Prop :=
  sub.toList <:+: hay.toList

instance (hay sub : String) : Decidable (strContains hay sub) :=
  List.decidableInfix sub.toList hay.toList

/-- A line-ending style: the three terminators the spec names
(`"\n"`, `"\r\n"`, `"\r"`). -/
inductive EOL where
  | lf : EOL
  | crlf : EOL
  | cr : EOL
deriving DecidableEq, Repr

/-- The characters of a terminator. -/
def eolChars : EOL → List Char
  | .lf => ['\n']
  | .crlf => ['\r', '\n']
  | .cr => ['\r']

/-- Build an image from explicit lines, each carrying its own terminator:
the vocabulary in which "two images whose line sequences differ only in
trailing whitespace or line-ending style" is stated. -/
def renderEOL : List (List Char × EOL) → List Char
  | [] => []
  | p :: rest => p.1 ++ (eolChars p.2 ++ renderEOL rest)

/-- The lines of a rendered image contain no terminator characters. -/
def cleanLines (ps : List (List Char × EOL)) : Prop :=
  ∀ p ∈ ps, '\n' ∉ p.1 ∧ '\r' ∉ p.1

/-- A `"\r"`-terminated line may not be followed by an empty `"\n"`-terminated
line: the adjacent `"\r"` and `"\n"` characters would fuse into a single
`"\r\n"` boundary, which is a different line sequence, not a different
ending style. -/
def eolSeqOk : List (List Char × EOL) → Prop
  | p :: q :: rest => ¬(p.2 = EOL.cr ∧ q.1 = [] ∧ q.2 = EOL.lf) ∧ eolSeqOk (q :: rest)
  | _ => True

/-- A line list whose `"\n"`-join is empty: `[]` (the empty image) and
`[""]` (a single blank line) both join to the empty image - the sole
collision of the join. -/
def joinDegenerate (ls : List (List Char)) : Prop :=
  ls = [] ∨ ls = [[]]

/-- Split on `'\n'` alone; the left inverse of `joinLines` used to prove the
join injective on terminator-free line lists. -/
def splitOnNL : List Char → List (List Char)
  | [] => [[]]
  | c :: rest =>
    if c = '\n' then [] :: splitOnNL rest
    else
      match splitOnNL rest with
      | [] => [[c]]
      | r :: rs => (c :: r) :: rs

/-- A log line of `MAX_LOG_SIZE` characters, putting the store at the
rotation threshold (witness fixture). -/
def bigLogLine : String :=
  String.mk (List.replicate MAX_LOG_SIZE 'a')

/-- A store whose active log is at the rotation threshold (witness
fixture). -/
def bigLogFS : FS :=
  ⟨none, some [bigLogLine], none⟩

/-- The routes `serve` (lines 242-277) can take for one request. -/
inductive ServeAction where
  | ledOn : ServeAction
  | ledOff : ServeAction
  | serveLog : ServeAction
  | otaUpdate : ServeAction
  | defaultPage : ServeAction
deriving DecidableEq, Repr

/-- The dispatch chain of `serve`: plain substring matching of the request
text, in source order (lines 243, 251, 259, 261, 277). -/
def serve_dispatch (request : String) : ServeAction :=
  if strContains request "GET /led/on" then .ledOn
  else if strContains request "GET /led/off" then .ledOff
  else if strContains request "GET /log" then .serveLog
  else if strContains request "GET /ota-update" then .otaUpdate
  else .defaultPage

/-- The `GET /ota-update` branch body (lines 261-276): log the trigger, run
`check_for_updates` synchronously, answer `200` with the status text
(`str(None)`, since `check_for_updates` returns `None`); an exception inside
the inner `try` would answer `500` - `check_for_updates` has its own
catch-all, so the `500` arm is dead in this embedding. -/
def serveOta (fuel : Nat) (io : Faults) (now : PyTime) (fetch : FetchResult)
    (fs : FS) : Option (FS × Trace × Nat) :=
  match logEvent fuel io now fs "Manual OTA update check triggered via web." (some (dstAdjust now)) with
  | none => none
  | some (fs1, con1, _) =>
    match check_for_updates fuel io now fetch fs1 with
    | none => none
    | some (fs2, tr, _) =>
      some (fs2, ⟨con1 ++ tr.console, tr.flashes, tr.writes, tr.resets⟩, 200)

/-! Step equations for `splitlinesAux`. -/

theorem splitlinesAux_nil (acc : List Char) :
    splitlinesAux acc [] = if acc.isEmpty then [] else [acc.reverse] := rfl

theorem splitlinesAux_lf (acc rest : List Char) :
    splitlinesAux acc ('\n' :: rest) = acc.reverse :: splitlinesAux [] rest := rfl

theorem splitlinesAux_crlf (acc rest : List Char) :
    splitlinesAux acc ('\r' :: '\n' :: rest) = acc.reverse :: splitlinesAux [] rest := rfl

theorem splitlinesAux_cr_nil (acc : List Char) :
    splitlinesAux acc ['\r'] = [acc.reverse] := rfl

theorem splitlinesAux_cr (acc : List Char) (c : Char) (rest : List Char) (h : ¬ c = '\n') :
    splitlinesAux acc ('\r' :: c :: rest) = acc.reverse :: splitlinesAux [] (c :: rest) := by
  rw [splitlinesAux.eq_def]
  split
  · simp_all
  · simp_all
  · simp_all
  · simp_all
  · rename_i hn2 hr2 heq
    simp only [List.cons.injEq] at heq
    exact absurd heq.1.symm hr2

theorem splitlinesAux_other (acc : List Char) (c : Char) (rest : List Char)
    (h1 : ¬ c = '\n') (h2 : ¬ c = '\r') :
    splitlinesAux acc (c :: rest) = splitlinesAux (c :: acc) rest := by
  rw [splitlinesAux.eq_def]
  split <;> simp_all

theorem splitlinesAux_cr_gen (acc x : List Char) (hx : ∀ r2, x ≠ '\n' :: r2) :
    splitlinesAux acc ('\r' :: x) = acc.reverse :: splitlinesAux [] x := by
  cases x with
  | nil => rfl
  | cons c t =>
    have hc : ¬ c = '\n' := fun h => hx t (by rw [h])
    exact splitlinesAux_cr acc c t hc

theorem splitlinesAux_consume (l : List Char) :
    ∀ acc x, '\n' ∉ l → '\r' ∉ l →
      splitlinesAux acc (l ++ x) = splitlinesAux (l.reverse ++ acc) x := by
  induction l with
  | nil => intro acc x h1 h2; simp
  | cons c l ih =>
    intro acc x h1 h2
    have hn : ¬ c = '\n' := fun hc => h1 (by rw [hc]; exact List.mem_cons_self _ _)
    have hr : ¬ c = '\r' := fun hc => h2 (by rw [hc]; exact List.mem_cons_self _ _)
    rw [List.cons_append, splitlinesAux_other acc c (l ++ x) hn hr,
      ih (c :: acc) x (fun hm => h1 (List.mem_cons_of_mem _ hm)) (fun hm => h2 (List.mem_cons_of_mem _ hm))]
    simp

theorem eolSeqOk_tail (p : List Char × EOL) (rest : List (List Char × EOL))
    (h : eolSeqOk (p :: rest)) : eolSeqOk rest := by
  cases rest with
  | nil => trivial
  | cons q rest2 => exact h.2

theorem render_head_ne_lf (ps : List (List Char × EOL)) (hcl : cleanLines ps)
    (hhd : ∀ q ps2, ps = q :: ps2 → ¬(q.1 = [] ∧ q.2 = EOL.lf)) :
    ∀ r2, renderEOL ps ≠ '\n' :: r2 := by
  intro r2 h
  cases ps with
  | nil => exact List.noConfusion h
  | cons q ps2 =>
    obtain ⟨l2, e2⟩ := q
    cases hl2 : l2 with
    | cons c2 t2 =>
      rw [hl2] at h
      have : c2 = '\n' := by
        have hh : (c2 :: (t2 ++ (eolChars e2 ++ renderEOL ps2))) = '\n' :: r2 := h
        exact (List.cons.injEq _ _ _ _ ▸ hh).1
      have hmem := hcl (l2, e2) (List.mem_cons_self _ _)
      exact hmem.1 (by rw [hl2, this]; exact List.mem_cons_self _ _)
    | nil =>
      rw [hl2] at h
      cases e2 with
      | lf => exact hhd (l2, EOL.lf) ps2 rfl ⟨hl2, rfl⟩
      | crlf =>
        have hh : ('\r' :: '\n' :: renderEOL ps2) = '\n' :: r2 := h
        exact absurd (List.cons.injEq _ _ _ _ ▸ hh).1 (by decide)
      | cr =>
        have hh : ('\r' :: renderEOL ps2) = '\n' :: r2 := h
        exact absurd (List.cons.injEq _ _ _ _ ▸ hh).1 (by decide)

theorem splitlines_renderEOL (ps : List (List Char × EOL)) (hcl : cleanLines ps)
    (hok : eolSeqOk ps) : splitlines (renderEOL ps) = ps.map Prod.fst := by
  induction ps with
  | nil => rfl
  | cons p ps ih =>
    obtain ⟨l, e⟩ := p
    have hlcl := hcl (l, e) (List.mem_cons_self _ _)
    have hcl2 : cleanLines ps := fun q hq => hcl q (List.mem_cons_of_mem _ hq)
    have hok2 : eolSeqOk ps := eolSeqOk_tail _ _ hok
    have ih2 : splitlinesAux [] (renderEOL ps) = ps.map Prod.fst := ih hcl2 hok2
    show splitlinesAux [] (l ++ (eolChars e ++ renderEOL ps)) = l :: ps.map Prod.fst
    rw [splitlinesAux_consume l [] (eolChars e ++ renderEOL ps) hlcl.1 hlcl.2]
    cases e with
    | lf =>
      show splitlinesAux (l.reverse ++ []) ('\n' :: renderEOL ps) = l :: ps.map Prod.fst
      rw [splitlinesAux_lf, ih2]
      simp
    | crlf =>
      show splitlinesAux (l.reverse ++ []) ('\r' :: '\n' :: renderEOL ps) = l :: ps.map Prod.fst
      rw [splitlinesAux_crlf, ih2]
      simp
    | cr =>
      show splitlinesAux (l.reverse ++ []) ('\r' :: renderEOL ps) = l :: ps.map Prod.fst
      have hhd : ∀ q ps2, ps = q :: ps2 → ¬(q.1 = [] ∧ q.2 = EOL.lf) := by
        intro q ps2 hps hq
        rw [hps] at hok
        exact hok.1 ⟨rfl, hq.1, hq.2⟩
      rw [splitlinesAux_cr_gen _ _ (render_head_ne_lf ps hcl2 hhd), ih2]
      simp

/-! `joinLines` is injective on terminator-free line lists, except that `[]`
and `[[]]` both join to `[]`. -/

theorem splitOnNL_ne_nil (l : List Char) : splitOnNL l ≠ [] := by
  cases l with
  | nil => simp [splitOnNL]
  | cons c rest =>
    simp only [splitOnNL]
    split
    · simp
    · split <;> simp

theorem splitOnNL_clean (l : List Char) (h : '\n' ∉ l) : splitOnNL l = [l] := by
  induction l with
  | nil => rfl
  | cons c rest ih =>
    have hc : ¬ c = '\n' := fun hh => h (by rw [hh]; exact List.mem_cons_self _ _)
    have ih2 := ih (fun hm => h (List.mem_cons_of_mem _ hm))
    simp only [splitOnNL, if_neg hc, ih2]

theorem splitOnNL_append_nl (l : List Char) (rest : List Char) (h : '\n' ∉ l) :
    splitOnNL (l ++ '\n' :: rest) = l :: splitOnNL rest := by
  induction l with
  | nil => simp [splitOnNL]
  | cons c t ih =>
    have hc : ¬ c = '\n' := fun hh => h (by rw [hh]; exact List.mem_cons_self _ _)
    have ih2 := ih (fun hm => h (List.mem_cons_of_mem _ hm))
    simp only [List.cons_append, splitOnNL, if_neg hc]
    rw [show splitOnNL (t.append ('\n' :: rest)) = t :: splitOnNL rest from ih2]

theorem splitOnNL_joinLines (ls : List (List Char)) (hne : ls ≠ [])
    (hcl : ∀ l ∈ ls, '\n' ∉ l) : splitOnNL (joinLines ls) = ls := by
  induction ls with
  | nil => exact absurd rfl hne
  | cons l ls ih =>
    cases ls with
    | nil => exact splitOnNL_clean l (hcl l (List.mem_cons_self _ _))
    | cons l2 ls2 =>
      have hj : joinLines (l :: l2 :: ls2) = l ++ '\n' :: joinLines (l2 :: ls2) := rfl
      rw [hj, splitOnNL_append_nl l _ (hcl l (List.mem_cons_self _ _)),
        ih (by simp) (fun q hq => hcl q (List.mem_cons_of_mem _ hq))]

theorem joinLines_nil_cases (ls : List (List Char)) (h : joinLines ls = []) :
    ls = [] ∨ ls = [[]] := by
  cases ls with
  | nil => exact Or.inl rfl
  | cons l ls2 =>
    cases ls2 with
    | nil =>
      right
      have : l = [] := h
      rw [this]
    | cons l2 ls3 =>
      exfalso
      have hj : joinLines (l :: l2 :: ls3) = l ++ '\n' :: joinLines (l2 :: ls3) := rfl
      rw [hj] at h
      cases l with
      | nil => exact List.noConfusion h
      | cons c t => exact List.noConfusion h

theorem joinLines_inj (ls ms : List (List Char)) (hls : ∀ l ∈ ls, '\n' ∉ l)
    (hms : ∀ l ∈ ms, '\n' ∉ l) (h : joinLines ls = joinLines ms) :
    ls = ms ∨ (joinDegenerate ls ∧ joinDegenerate ms) := by
  by_cases hl : ls = []
  · subst hl
    have : joinLines ms = [] := h.symm
    rcases joinLines_nil_cases ms this with hm | hm
    · exact Or.inl hm.symm
    · exact Or.inr ⟨Or.inl rfl, Or.inr hm⟩
  · by_cases hm : ms = []
    · subst hm
      have : joinLines ls = [] := h
      rcases joinLines_nil_cases ls this with hm2 | hm2
      · exact Or.inl hm2
      · exact Or.inr ⟨Or.inr hm2, Or.inl rfl⟩
    · left
      have h1 := splitOnNL_joinLines ls hl hls
      have h2 := splitOnNL_joinLines ms hm hms
      rw [← h1, ← h2, h]

theorem rstrip_subset (l : List Char) (c : Char) (h : c ∈ rstrip l) : c ∈ l := by
  unfold rstrip at h
  rw [List.mem_reverse] at h
  have hsub := List.dropWhile_sublist (l := l.reverse) (p := isTrailingWS)
  have h2 := hsub.subset h
  rw [List.mem_reverse] at h2
  exact h2

theorem splitlines_no_eol (code : List Char) :
    ∀ l ∈ splitlines code, '\n' ∉ l ∧ '\r' ∉ l := by
  have main : ∀ acc s, '\n' ∉ acc → '\r' ∉ acc →
      ∀ l ∈ splitlinesAux acc s, '\n' ∉ l ∧ '\r' ∉ l := by
    intro acc s
    induction acc, s using splitlinesAux.induct with
    | case1 acc hacc =>
      intro h1 h2 l hl
      rw [splitlinesAux_nil, if_pos hacc] at hl
      exact absurd hl (List.not_mem_nil l)
    | case2 acc hacc =>
      intro h1 h2 l hl
      rw [splitlinesAux_nil, if_neg hacc] at hl
      rcases List.mem_cons.mp hl with hl | hl
      · subst hl
        simp only [List.mem_reverse]
        exact ⟨h1, h2⟩
      · exact absurd hl (List.not_mem_nil l)
    | case3 acc rest ih =>
      intro h1 h2 l hl
      rw [splitlinesAux_crlf] at hl
      rcases List.mem_cons.mp hl with hl | hl
      · subst hl
        simp only [List.mem_reverse]
        exact ⟨h1, h2⟩
      · exact ih (by simp) (by simp) l hl
    | case4 acc rest ih =>
      intro h1 h2 l hl
      rw [splitlinesAux_lf] at hl
      rcases List.mem_cons.mp hl with hl | hl
      · subst hl
        simp only [List.mem_reverse]
        exact ⟨h1, h2⟩
      · exact ih (by simp) (by simp) l hl
    | case5 acc rest hne ih =>
      intro h1 h2 l hl
      rw [splitlinesAux_cr_gen acc rest (fun r2 hr => hne r2 hr)] at hl
      rcases List.mem_cons.mp hl with hl | hl
      · subst hl
        simp only [List.mem_reverse]
        exact ⟨h1, h2⟩
      · exact ih (by simp) (by simp) l hl
    | case6 acc c rest hcr hn hr ih =>
      intro h1 h2 l hl
      rw [splitlinesAux_other acc c rest (fun hh => hn hh) (fun hh => hr hh)] at hl
      refine ih ?_ ?_ l hl
      · simp only [List.mem_cons, not_or]
        exact ⟨fun hh => hn hh.symm, h1⟩
      · simp only [List.mem_cons, not_or]
        exact ⟨fun hh => hr hh.symm, h2⟩
  intro l hl
  exact main [] code (by simp) (by simp) l hl

theorem normLines_no_nl (code : List Char) : ∀ l ∈ normLines code, '\n' ∉ l := by
  intro l hl hmem
  unfold normLines at hl
  rw [List.mem_map] at hl
  obtain ⟨l0, hl0, rfl⟩ := hl
  exact (splitlines_no_eol code l0 hl0).1 (rstrip_subset l0 '\n' hmem)

/-! Runs of `log_event` below and at the rotation threshold. -/

theorem logEvent_below (fuel : Nat) (io : Faults) (now : PyTime) (fs : FS) (msg : String)
    (tOpt : Option PyTime) (hap : io.appendFails = none) (hsz : logSize fs < MAX_LOG_SIZE) :
    logEvent (fuel + 1) io now fs msg tOpt =
      some (appendLog fs (mkLogLine (tOpt.getD now) msg), [mkLogLine (tOpt.getD now) msg], none) := by
  have hc : ¬(io.statFails = false ∧ fs.log.isSome = true ∧ MAX_LOG_SIZE ≤ logSize fs) := by
    rintro ⟨h1, h2, h3⟩
    omega
  simp only [logEvent, if_neg hc, hap]

theorem logEvent_stuck (io : Faults) (fs : FS) (hst : io.statFails = false)
    (hlog : fs.log.isSome = true) (hsz : MAX_LOG_SIZE ≤ logSize fs) :
    ∀ fuel now msg tOpt, logEvent fuel io now fs msg tOpt = none := by
  intro fuel
  induction fuel with
  | zero => intro now msg tOpt; rfl
  | succ n ih =>
    intro now msg tOpt
    simp only [logEvent, if_pos (⟨hst, hlog, hsz⟩ : _ ∧ _ ∧ _)]
    rw [ih now rotationMsg (some (dstAdjust now))]

/-! Substring-containment helpers. -/

theorem strContains_mkLogLine (t : PyTime) (msg sub : String) (h : strContains msg sub) :
    strContains (mkLogLine t msg) sub := by
  obtain ⟨p, q, hpq⟩ := h
  refine ⟨(formatTime t ++ " - ").toList ++ p, q, ?_⟩
  have hdata : (mkLogLine t msg).toList = (formatTime t ++ " - ").toList ++ msg.toList := by
    show (formatTime t ++ " - " ++ msg).data = (formatTime t ++ " - ").data ++ msg.data
    rw [String.data_append]
  rw [hdata, ← hpq]
  simp

theorem strContains_suffix_part (a b : String) : strContains (a ++ b) b := by
  refine ⟨a.toList, [], ?_⟩
  show a.toList ++ b.toList ++ [] = (a ++ b).data
  rw [String.data_append]
  simp [String.toList]

/-- The `UpToDate` run of `check_for_updates`, in full. -/
theorem check_upToDate (fuel : Nat) (now : PyTime) (txt cur : List Char) (fs : FS)
    (hscript : fs.script = some cur) (heq : normalize_code cur = normalize_code txt)
    (hsz : logSize fs < MAX_LOG_SIZE) :
    check_for_updates (fuel + 1) noFaults now (.ok 200 txt) fs =
      some (appendLog fs (mkLogLine (dstAdjust now) "Checked for updates: No updates available."),
        ⟨["No updates available.",
            mkLogLine (dstAdjust now) "Checked for updates: No updates available."], 0, [], 0⟩,
        .upToDate) := by
  simp only [check_for_updates, hscript, if_true]
  rw [if_neg (not_not_intro heq), logEvent_below fuel noFaults now fs _ _ rfl hsz]
  rfl

/-! The claims. -/

/-- C1: a fetch that returns 200 with content differing from the installed
image performs exactly one write of the new normalized content and logs the
install before the restart attempt, but the device restart is NEVER invoked:
`machine.reset()` (line 124) raises `NameError` because only
`from machine import Pin, reset` (line 4) was imported, so the run ends in
the catch-all handler with zero resets.  Shown on a concrete run: installed
image `"old"`, fetched image `"new"`, starting from an empty log. -/
theorem c1_update_write_then_reset_nameerror :
    check_for_updates 3 noFaults ⟨2025, 1, 1, 0, 0, 0⟩ (FetchResult.ok 200 "new".toList)
        ⟨some "old".toList, some [], none⟩ =
      some (⟨some "new".toList,
          some ["2025-01-01 01:00:00 - Update available. Applying update...",
            "2025-01-01 01:00:00 - OTA update applied. Restarting...",
            "2025-01-01 01:00:00 - Error during OTA update: " ++ nameErrMachine], none⟩,
        ⟨["Update available. Applying update...",
            "2025-01-01 01:00:00 - Update available. Applying update...",
            "Update applied. Restarting...",
            "2025-01-01 01:00:00 - OTA update applied. Restarting...",
            "Error during OTA update: " ++ nameErrMachine,
            "2025-01-01 01:00:00 - Error during OTA update: " ++ nameErrMachine],
          1, ["new".toList], 0⟩,
        Outcome.otaError nameErrMachine) := by
  decide

/-- C2: when the fetch returns 200 and the normalized fetched content equals
the normalized installed content, the run ends `UpToDate`, writes nothing to
the image store, appends exactly one log line (which contains
"No updates available"), and leaves the script untouched; running the check
again on the resulting state gives `UpToDate` again with zero writes. -/
theorem c2_up_to_date_idempotent (fuel1 fuel2 : Nat) (now1 now2 : PyTime)
    (txt cur : List Char) (fs : FS)
    (hscript : fs.script = some cur)
    (heq : normalize_code cur = normalize_code txt)
    (hsz1 : logSize fs < MAX_LOG_SIZE)
    (hsz2 : logSize (appendLog fs
      (mkLogLine (dstAdjust now1) "Checked for updates: No updates available.")) < MAX_LOG_SIZE) :
    check_for_updates (fuel1 + 1) noFaults now1 (.ok 200 txt) fs =
      some (appendLog fs (mkLogLine (dstAdjust now1) "Checked for updates: No updates available."),
        ⟨["No updates available.",
            mkLogLine (dstAdjust now1) "Checked for updates: No updates available."], 0, [], 0⟩,
        .upToDate) ∧
    strContains (mkLogLine (dstAdjust now1) "Checked for updates: No updates available.")
      "No updates available." ∧
    check_for_updates (fuel2 + 1) noFaults now2 (.ok 200 txt)
        (appendLog fs (mkLogLine (dstAdjust now1) "Checked for updates: No updates available.")) =
      some (appendLog
          (appendLog fs (mkLogLine (dstAdjust now1) "Checked for updates: No updates available."))
          (mkLogLine (dstAdjust now2) "Checked for updates: No updates available."),
        ⟨["No updates available.",
            mkLogLine (dstAdjust now2) "Checked for updates: No updates available."], 0, [], 0⟩,
        .upToDate) := by
  refine ⟨check_upToDate fuel1 now1 txt cur fs hscript heq hsz1, ?_, ?_⟩
  · exact strContains_mkLogLine _ _ _
      (by decide : strContains "Checked for updates: No updates available." "No updates available.")
  · exact check_upToDate fuel2 now2 txt cur _ hscript heq hsz2

theorem c2_up_to_date_idempotent_witness :
    check_for_updates 1 noFaults ⟨2025, 1, 1, 0, 0, 0⟩ (FetchResult.ok 200 "a \r\nb".toList)
        ⟨some "a\nb".toList, some [], none⟩ =
      some (appendLog ⟨some "a\nb".toList, some [], none⟩
          (mkLogLine (dstAdjust ⟨2025, 1, 1, 0, 0, 0⟩) "Checked for updates: No updates available."),
        ⟨["No updates available.",
            mkLogLine (dstAdjust ⟨2025, 1, 1, 0, 0, 0⟩) "Checked for updates: No updates available."],
          0, [], 0⟩,
        Outcome.upToDate) :=
  (c2_up_to_date_idempotent 0 0 ⟨2025, 1, 1, 0, 0, 0⟩ ⟨2025, 1, 1, 0, 0, 0⟩
    "a \r\nb".toList "a\nb".toList ⟨some "a\nb".toList, some [], none⟩
    rfl (by decide) (by decide) (by decide)).1

/-- C3 counterexample: the empty image and the image `"\n"` compare equal
under the normalization used by the update check (both normalize to the
empty image), yet their normalized line sequences differ (`[]` versus
`[""]`) - so "equal iff the normalized line sequences are identical" fails
in the only-if direction. -/
theorem c3_join_collision_cex :
    normalize_code [] = normalize_code ['\n'] ∧ normLines [] ≠ normLines ['\n'] := by
  decide

/-- C3 amended: (1) two images built from line sequences that differ only in
trailing whitespace per line or in terminator style (`"\n"`, `"\r\n"`,
`"\r"`) normalize identically, hence compare equal; (2) two images compare
equal iff their normalized line sequences are identical OR both sequences
are join-degenerate (`[]` or `[""]`, which both join to the empty image) -
the single collision of the `"\n"`-join. -/
theorem c3_normalization_amended :
    (∀ ps qs : List (List Char × EOL), cleanLines ps → cleanLines qs →
      eolSeqOk ps → eolSeqOk qs →
      ps.map (fun p => rstrip p.1) = qs.map (fun q => rstrip q.1) →
      normalize_code (renderEOL ps) = normalize_code (renderEOL qs)) ∧
    (∀ a b : List Char, normalize_code a = normalize_code b ↔
      (normLines a = normLines b ∨ (joinDegenerate (normLines a) ∧ joinDegenerate (normLines b)))) := by
  constructor
  · intro ps qs hclp hclq hokp hokq hmap
    unfold normalize_code
    rw [splitlines_renderEOL ps hclp hokp, splitlines_renderEOL qs hclq hokq,
      List.map_map, List.map_map]
    exact congrArg joinLines hmap
  · intro a b
    constructor
    · intro h
      exact joinLines_inj (normLines a) (normLines b) (normLines_no_nl a) (normLines_no_nl b) h
    · intro h
      rcases h with h | ⟨h1, h2⟩
      · show joinLines (normLines a) = joinLines (normLines b)
        rw [h]
      · rcases h1 with h1 | h1 <;> rcases h2 with h2 | h2 <;>
          (show joinLines (normLines a) = joinLines (normLines b); simp [h1, h2, joinLines])

theorem c3_normalization_amended_witness :
    normalize_code (renderEOL [("a  ".toList, EOL.crlf), ("b".toList, EOL.cr)]) =
      normalize_code (renderEOL [("a".toList, EOL.lf), ("b\t".toList, EOL.lf)]) :=
  c3_normalization_amended.1 [("a  ".toList, EOL.crlf), ("b".toList, EOL.cr)]
    [("a".toList, EOL.lf), ("b\t".toList, EOL.lf)]
    (by unfold cleanLines; decide) (by unfold cleanLines; decide)
    ⟨by decide, trivial⟩ ⟨by decide, trivial⟩ (by decide)

/-- C4: a fetch that completes with a non-200 status ends the run as
`Unavailable` with that status, appends exactly one log line (containing the
status code), performs no write and no restart; a fetch that raises lands in
the catch-all, which likewise appends one log line containing the failure
and ends the run without write, restart, or process death. -/
theorem c4_fetch_failure_unavailable (fuel1 fuel2 : Nat) (now1 now2 : PyTime) (status : Nat)
    (txt : List Char) (m : String) (fs : FS)
    (hstatus : ¬ status = 200) (hsz : logSize fs < MAX_LOG_SIZE) :
    (check_for_updates (fuel1 + 1) noFaults now1 (.ok status txt) fs =
      some (appendLog fs (mkLogLine (dstAdjust now1) ("Failed to fetch update: " ++ toString status)),
        ⟨["Failed to fetch update: " ++ toString status,
            mkLogLine (dstAdjust now1) ("Failed to fetch update: " ++ toString status)], 0, [], 0⟩,
        .unavailable status) ∧
      strContains (mkLogLine (dstAdjust now1) ("Failed to fetch update: " ++ toString status))
        (toString status)) ∧
    (check_for_updates (fuel2 + 1) noFaults now2 (.exn m) fs =
      some (appendLog fs (mkLogLine (dstAdjust now2) ("Error during OTA update: " ++ m)),
        ⟨["Error during OTA update: " ++ m,
            mkLogLine (dstAdjust now2) ("Error during OTA update: " ++ m)], 0, [], 0⟩,
        .otaError m) ∧
      strContains (mkLogLine (dstAdjust now2) ("Error during OTA update: " ++ m)) m) := by
  refine ⟨⟨?_, ?_⟩, ?_, ?_⟩
  · simp only [check_for_updates, if_neg hstatus]
    rw [logEvent_below fuel1 noFaults now1 fs _ _ rfl hsz]
    rfl
  · exact strContains_mkLogLine _ _ _
      (strContains_suffix_part "Failed to fetch update: " (toString status))
  · simp only [check_for_updates, catchOta]
    rw [logEvent_below fuel2 noFaults now2 fs _ _ rfl hsz]
    rfl
  · exact strContains_mkLogLine _ _ _
      (strContains_suffix_part "Error during OTA update: " m)

theorem c4_fetch_failure_unavailable_witness :
    check_for_updates 1 noFaults ⟨2025, 1, 1, 0, 0, 0⟩ (FetchResult.ok 404 "x".toList)
        ⟨some "s".toList, some [], none⟩ =
      some (appendLog ⟨some "s".toList, some [], none⟩
          (mkLogLine (dstAdjust ⟨2025, 1, 1, 0, 0, 0⟩) ("Failed to fetch update: " ++ toString 404)),
        ⟨["Failed to fetch update: " ++ toString 404,
            mkLogLine (dstAdjust ⟨2025, 1, 1, 0, 0, 0⟩) ("Failed to fetch update: " ++ toString 404)],
          0, [], 0⟩,
        Outcome.unavailable 404) :=
  ((c4_fetch_failure_unavailable 0 0 ⟨2025, 1, 1, 0, 0, 0⟩ ⟨2025, 1, 1, 0, 0, 0⟩ 404
    "x".toList "timeout" ⟨some "s".toList, some [], none⟩ (by decide) (by decide)).1).1

/-- C5 counterexample: a run in which the installer write fails completes
(the exception is caught), but the previously installed image is NOT
preserved on storage: `open(SCRIPT_NAME, "w")` truncates the file before the
failing write, leaving the store empty instead of holding `"old"`. -/
theorem c5_old_image_not_preserved_cex :
    (check_for_updates 3 ⟨false, none, none, some "ENOSPC"⟩ ⟨2025, 1, 1, 0, 0, 0⟩
        (FetchResult.ok 200 "new".toList) ⟨some "old".toList, some [], none⟩).map
      (fun r => r.1.script) = some (some []) ∧
    some ("old".toList) ≠ some ([] : List Char) := by
  decide

/-- C5 amended: when the installer write raises, the exception propagates
out of `update_script` to the catch-all in `check_for_updates`, is logged
there, no device restart is invoked (`resets = 0`), no completed image write
is recorded, and the run returns (the process keeps running) - but the
stored image is left truncated (empty), not preserved, because the file was
opened in write mode before the failing write. -/
theorem c5_write_failure_amended (fuel : Nat) (now : PyTime) (txt cur : List Char)
    (fs : FS) (m : String)
    (hscript : fs.script = some cur) (hne : normalize_code cur ≠ normalize_code txt)
    (hsz1 : logSize fs < MAX_LOG_SIZE)
    (hsz2 : logSize (appendLog fs
      (mkLogLine (dstAdjust now) "Update available. Applying update...")) < MAX_LOG_SIZE) :
    check_for_updates (fuel + 1) ⟨false, none, none, some m⟩ now (.ok 200 txt) fs =
      some (⟨some [],
          some (logLines fs ++ [mkLogLine (dstAdjust now) "Update available. Applying update...",
            mkLogLine (dstAdjust now) ("Error during OTA update: " ++ m)]), fs.logBak⟩,
        ⟨["Update available. Applying update...",
            mkLogLine (dstAdjust now) "Update available. Applying update...",
            "Error during OTA update: " ++ m,
            mkLogLine (dstAdjust now) ("Error during OTA update: " ++ m)], 1, [], 0⟩,
        .otaError m) ∧
    strContains (mkLogLine (dstAdjust now) ("Error during OTA update: " ++ m))
      "Error during OTA update: " := by
  constructor
  · simp only [check_for_updates, hscript, if_true]
    rw [if_pos hne, logEvent_below fuel ⟨false, none, none, some m⟩ now fs _ _ rfl hsz1]
    simp only [update_script_run, catchOta, Option.getD_some]
    rw [logEvent_below fuel ⟨false, none, none, some m⟩ now
      (withScript (appendLog fs (mkLogLine (dstAdjust now) "Update available. Applying update..."))
        (some [])) ("Error during OTA update: " ++ m) (some (dstAdjust now)) rfl hsz2]
    simp [appendLog, withScript, logLines]
  · obtain ⟨p, q, hpq⟩ := strContains_suffix_part "" "Error during OTA update: "
    refine strContains_mkLogLine _ _ _ ⟨[], m.toList, ?_⟩
    show [] ++ "Error during OTA update: ".toList ++ m.toList = ("Error during OTA update: " ++ m).data
    rw [String.data_append]
    simp [String.toList]

theorem c5_write_failure_amended_witness :
    check_for_updates 1 ⟨false, none, none, some "ENOSPC"⟩ ⟨2025, 1, 1, 0, 0, 0⟩
        (FetchResult.ok 200 "new".toList) ⟨some "old".toList, some [], none⟩ =
      some (⟨some [],
          some ([mkLogLine (dstAdjust ⟨2025, 1, 1, 0, 0, 0⟩) "Update available. Applying update...",
            mkLogLine (dstAdjust ⟨2025, 1, 1, 0, 0, 0⟩) ("Error during OTA update: " ++ "ENOSPC")]), none⟩,
        ⟨["Update available. Applying update...",
            mkLogLine (dstAdjust ⟨2025, 1, 1, 0, 0, 0⟩) "Update available. Applying update...",
            "Error during OTA update: " ++ "ENOSPC",
            mkLogLine (dstAdjust ⟨2025, 1, 1, 0, 0, 0⟩) ("Error during OTA update: " ++ "ENOSPC")],
          1, [], 0⟩,
        Outcome.otaError "ENOSPC") :=
  (c5_write_failure_amended 0 ⟨2025, 1, 1, 0, 0, 0⟩ "new".toList "old".toList
    ⟨some "old".toList, some [], none⟩ "ENOSPC" rfl (by decide) (by decide) (by decide)).1

/-- C6: once the active log is at or above `MAX_LOG_SIZE`, a `log_event`
call never completes at all (for any fuel): line 142 calls `log_event`
recursively BEFORE `rotate_log_file`, the store is unchanged at that point,
so the size check fires again forever - the rename and the post-rotation
fresh file are never reached, rather than "exactly one rename" occurring. -/
theorem c6_rotation_write_never_completes (fuel : Nat) (io : Faults) (now : PyTime) (fs : FS)
    (msg : String) (tOpt : Option PyTime) (hst : io.statFails = false)
    (hlog : fs.log.isSome = true) (hsz : MAX_LOG_SIZE ≤ logSize fs) :
    (logEvent fuel io now fs msg tOpt).isSome = false := by
  rw [logEvent_stuck io fs hst hlog hsz fuel now msg tOpt]
  rfl

theorem c6_rotation_write_never_completes_witness :
    (logEvent 9 noFaults ⟨2025, 1, 1, 0, 0, 0⟩ bigLogFS "tick" none).isSome = false :=
  c6_rotation_write_never_completes 9 noFaults ⟨2025, 1, 1, 0, 0, 0⟩ bigLogFS "tick" none
    rfl rfl (by simp [logSize, logLines, bigLogFS, bigLogLine])

/-- C7: `log_event` never lets an exception escape its own boundary: for
every fuel, fault injection (stat, rename and append failures with arbitrary
messages), state, message and timestamp, a completed call carries no
propagated exception - every failure is caught inside and only printed. -/
theorem c7_log_event_never_raises (fuel : Nat) (io : Faults) (now : PyTime) (fs : FS)
    (msg : String) (tOpt : Option PyTime) :
    logEvent fuel io now fs msg tOpt = none ∨
      ∃ fs2 con, logEvent fuel io now fs msg tOpt = some (fs2, con, none) := by
  cases fuel with
  | zero => exact Or.inl rfl
  | succ n =>
    simp only [logEvent]
    split
    · cases hrec : logEvent n io now fs rotationMsg (some (dstAdjust now)) with
      | none => exact Or.inl rfl
      | some r =>
        obtain ⟨fs1, con1, e1⟩ := r
        cases hap : io.appendFails with
        | none => exact Or.inr ⟨_, _, rfl⟩
        | some m => exact Or.inr ⟨_, _, rfl⟩
    · cases hap : io.appendFails with
      | none => exact Or.inr ⟨_, _, rfl⟩
      | some m => exact Or.inr ⟨_, _, rfl⟩

/-- C8 counterexample: on March 25 the offset expression evaluates to 2, not
1 - the interval is inclusive at the March 25 boundary, so "strictly between
March 25 and October 25, and 1 otherwise (in particular 1 on March 25)"
fails on that date. -/
theorem c8_march25_boundary_cex :
    local_offset_hours 3 25 = 2 ∧ ¬ local_offset_hours 3 25 = 1 := by
  decide

/-- C8 amended: the offset is 2 exactly on the dates from March 25
(inclusive) up to but excluding October 25, and 1 otherwise - so March 25
itself gets 2 while October 25 gets 1. -/
theorem c8_dst_offset_amended (m d : Nat) :
    (local_offset_hours m d = 2 ↔
      ((m = 3 ∧ 25 ≤ d) ∨ (4 ≤ m ∧ m ≤ 9) ∨ (m = 10 ∧ d < 25))) ∧
    (local_offset_hours m d = 1 ↔
      ¬((m = 3 ∧ 25 ≤ d) ∨ (4 ≤ m ∧ m ≤ 9) ∨ (m = 10 ∧ d < 25))) := by
  unfold local_offset_hours
  split <;> constructor <;> constructor <;> intro _ <;> omega

/-- C9 counterexample: a request whose request line is `GET /update` matches
none of the dispatch patterns (`serve` only tests for the substring
`"GET /ota-update"`), so it is served the default control-panel page and the
Update Decision Engine does not run. -/
theorem c9_update_route_cex :
    serve_dispatch "GET /update HTTP/1.1\r\n\r\n" = ServeAction.defaultPage ∧
    ¬ serve_dispatch "GET /update HTTP/1.1\r\n\r\n" = ServeAction.otaUpdate := by
  decide

/-- C9 amended: only requests containing `"GET /ota-update"` (and none of
the earlier patterns in the dispatch chain) reach the update branch, which
runs the Decision Engine synchronously and, when it completes, answers
HTTP 200 with a status text; a plain `GET /update` request falls through to
the default control-panel page. -/
theorem c9_dispatch_amended :
    (∀ r : String, strContains r "GET /ota-update" → ¬ strContains r "GET /led/on" →
      ¬ strContains r "GET /led/off" → ¬ strContains r "GET /log" →
        serve_dispatch r = ServeAction.otaUpdate) ∧
    serve_dispatch "GET /update HTTP/1.1\r\n\r\n" = ServeAction.defaultPage ∧
    (∀ fuel io now fetch fs, serveOta fuel io now fetch fs = none ∨
      ∃ fs2 tr, serveOta fuel io now fetch fs = some (fs2, tr, 200)) := by
  refine ⟨?_, by decide, ?_⟩
  · intro r h1 h2 h3 h4
    unfold serve_dispatch
    rw [if_neg h2, if_neg h3, if_neg h4, if_pos h1]
  · intro fuel io now fetch fs
    unfold serveOta
    cases hlog : logEvent fuel io now fs "Manual OTA update check triggered via web." (some (dstAdjust now)) with
    | none => exact Or.inl rfl
    | some r =>
      obtain ⟨fs1, con1, e1⟩ := r
      dsimp only
      cases hchk : check_for_updates fuel io now fetch fs1 with
      | none => exact Or.inl rfl
      | some r2 =>
        obtain ⟨fs2, tr, oc⟩ := r2
        exact Or.inr ⟨_, _, rfl⟩

theorem c9_dispatch_amended_witness :
    serve_dispatch "GET /ota-update HTTP/1.1\r\n\r\n" = ServeAction.otaUpdate :=
  c9_dispatch_amended.1 "GET /ota-update HTTP/1.1\r\n\r\n"
    (by decide) (by decide) (by decide) (by decide)

/-- C10: `log_event` does NOT always terminate: when the active log is at or
above `MAX_LOG_SIZE`, the recursive self-call at line 142 happens before any
rotation, so the size condition holds again at every depth and the call
never returns for any amount of fuel - the append is never reached. -/
theorem c10_log_event_diverges_at_threshold (fuel : Nat) (io : Faults) (now : PyTime)
    (fs : FS) (msg : String) (tOpt : Option PyTime) (hst : io.statFails = false)
    (hlog : fs.log.isSome = true) (hsz : MAX_LOG_SIZE ≤ logSize fs) :
    logEvent fuel io now fs msg tOpt = none :=
  logEvent_stuck io fs hst hlog hsz fuel now msg tOpt

theorem c10_log_event_diverges_at_threshold_witness :
    logEvent 7 noFaults ⟨2025, 1, 1, 0, 0, 0⟩ bigLogFS "hello" none = none :=
  c10_log_event_diverges_at_threshold 7 noFaults ⟨2025, 1, 1, 0, 0, 0⟩ bigLogFS "hello" none
    rfl rfl (by simp [logSize, logLines, bigLogFS, bigLogLine])

end PicoOTA
